import Mathlib

/-!
# Verification of the IPv6 connectivity check engine (`scripts/check-ipv6.js`)

A shallow embedding of the connectivity verification & reconciliation engine.
The engine loads a registry of services, derives hostname variants per
service, probes DNS (AAAA) and HTTP-over-IPv6 reachability, reconciles the
outcomes into per-service test records (migrating legacy identifiers),
infers an overall status when it is still `unknown`, and writes the registry
back only when something changed.

Modelling conventions:
* A service's `url` string is represented by the outcome of parsing it with
  `new URL(...)`: `some hostname` when well-formed, `none` when malformed
  (in which case `new URL` throws).  The engine only ever reads the
  hostname (and the protocol, which does not influence any persisted
  outcome), so this captures exactly what the code consumes.
* The network is an environment `env : String → ProbeOutcome` giving, for
  each hostname probed during the run, the outcome of the AAAA lookup, the
  A lookup and the IPv6-only HTTP reachability probe
  (`checkAAAARecord` / `getARecord` / `testHTTPConnectivity`).  All three
  helpers resolve (never reject), so a total function is faithful.
* `String` operations used by the code (`startsWith('www.')`,
  `substring(4)`, `split('.')`) are implemented structurally over the
  character list so that the kernel can evaluate them.
* Console output relevant to the claims is modelled as a list of
  `LogEvent`s; plain progress printing is omitted.
-/

namespace CheckIPv6

/-- `hostname.startsWith('www.')` (check-ipv6.js line 140). -/
def wwwPrefixed (h : String) : Bool :=
  match h.data with
  | 'w' :: 'w' :: 'w' :: '.' :: _ => true
  | _ => false

/-- `hostname.substring(4)` (check-ipv6.js line 142). -/
def dropWww (h : String) : String :=
  ⟨h.data.drop 4⟩

/-- `hostname.split('.')` on the character list: split on `'.'`.
JavaScript's `split` on a one-character separator produces one field per
maximal dot-free run, with empty fields kept. -/
def splitLabels : List Char → List (List Char)
  | [] => [[]]
  | c :: cs =>
    let r := splitLabels cs
    if c = '.' then [] :: r
    else
      match r with
      | l :: ls => (c :: l) :: ls
      | [] => [[c]]

/-- `hostname.split('.').length` (check-ipv6.js line 150). -/
def labelCount (h : String) : Nat :=
  (splitLabels h.data).length

/-- The `{apex, www, providedForm}` record returned by `getDomainVariants`. -/
structure DomainVariant where
  apex : Option String
  www : Option String
  providedForm : Option String
deriving Repr, DecidableEq

/-- `getDomainVariants` (check-ipv6.js lines 134-168).  The `urlStr`
argument is represented by its parse outcome: `new URL(urlStr)` throwing is
the `none` case, handled by the surrounding `try`/`catch` (lines 165-167)
which returns the all-`null` variant. -/
def getDomainVariants : Option String → DomainVariant
  | none => ⟨none, none, none⟩
  | some hostname =>
    if wwwPrefixed hostname then
      ⟨some (dropWww hostname), some hostname, some "www"⟩
    else if labelCount hostname > 2 then
      ⟨some hostname, none, some "subdomain"⟩
    else
      ⟨some hostname, some ("www." ++ hostname), some "apex"⟩

/-- The per-hostname probe outcomes consumed by reconciliation
(`checkDomain`'s `hasAAAA`/`hasA`/`httpWorks` fields; diagnostic-only
fields `error` and `addresses` are not persisted and are omitted). -/
structure ProbeOutcome where
  hasAAAA : Bool
  hasA : Bool
  httpWorks : Bool
deriving Repr, DecidableEq

/-- `checkDomain` (check-ipv6.js lines 170-195): a falsy hostname
short-circuits to a failed probe (`hasAAAA=false`, `httpWorks=false`,
error `'N/A'`); otherwise the three probes run and their outcomes are
given by the environment. -/
def checkDomain (env : String → ProbeOutcome) : Option String → ProbeOutcome
  | none => ⟨false, false, false⟩
  | some h => env h

/-- A persisted test record (`{id, name, description, result}`), with
`result` the tri-state `true`/`false`/`null`. -/
structure Test where
  id : String
  name : String
  description : String
  result : Option Bool
deriving Repr, DecidableEq

/-- The persisted `ipv6` record of a service (fields the engine reads or
writes; `notes` is never touched by the engine and is omitted). -/
structure IPv6Record where
  status : String
  last_checked : Option String
  tests : List Test
deriving Repr, DecidableEq

/-- A registry entry (fields the engine reads; `category`/`description`
are never touched).  `url` is represented by its parse outcome, see the
module docstring. -/
structure Service where
  id : String
  name : String
  url : Option String
  ipv6 : IPv6Record
deriving Repr, DecidableEq

/-- Console events relevant to auditing a run: the Azure override notice
(line 299), a changed apex result (line 307), a changed www result
(line 318) and a status-mismatch warning (line 356). -/
inductive LogEvent where
  | azureOverride
  | apexUpdate (works hasAAAA httpWorks : Bool)
  | wwwUpdate (works hasAAAA httpWorks : Bool)
  | statusMismatch (current suggested : String)
deriving Repr, DecidableEq

/-- `t => t.id === i`: the predicate used by every `tests.find` call. -/
def tIs (i : String) (t : Test) : Bool := t.id == i

/-- Replace the first element satisfying `p` by its image under `f`
(mutation of the object returned by `Array.prototype.find`). -/
def replaceFirst (p : Test → Bool) (f : Test → Test) : List Test → List Test
  | [] => []
  | t :: ts => if p t then f t :: ts else t :: replaceFirst p f ts

/-- Remove the first element satisfying `p`
(`tests.splice(tests.indexOf(t), 1)`, check-ipv6.js lines 323-326). -/
def removeFirst (p : Test → Bool) : List Test → List Test
  | [] => []
  | t :: ts => if p t then ts else t :: removeFirst p ts

def apexName : String := "Apex Domain"
def apexDesc : String := "Apex domain works over IPv6 (both DNS and HTTP connectivity)"
def wwwName : String := "WWW Domain"
def wwwDesc : String := "WWW domain works over IPv6 (both DNS and HTTP connectivity)"

/-- The in-place rename of a legacy `aaaa_record` test (check-ipv6.js
lines 253-255): id, name and description refreshed, result untouched. -/
def renameToApex (t : Test) : Test :=
  { t with id := "apex_domain", name := apexName, description := apexDesc }

/-- The in-place rename of a legacy `www_variant` test (check-ipv6.js
lines 263-265). -/
def renameToWww (t : Test) : Test :=
  { t with id := "www_domain", name := wwwName, description := wwwDesc }

/-- Legacy-identifier migration for the apex test (check-ipv6.js lines
250-258): when no `apex_domain` test exists, the first `aaaa_record` test
is renamed in place and its name/description refreshed; the flag is
`serviceUpdated`. -/
def migrateApex (ts : List Test) : List Test × Bool :=
  match ts.find? (tIs "apex_domain") with
  | some _ => (ts, false)
  | none =>
    match ts.find? (tIs "aaaa_record") with
    | some _ => (replaceFirst (tIs "aaaa_record") renameToApex ts, true)
    | none => (ts, false)

/-- Legacy-identifier migration for the www test (check-ipv6.js lines
260-268), attempted only when a www variant applies (`domains.www`). -/
def migrateWww (wwwApplicable : Bool) (ts : List Test) : List Test × Bool :=
  match ts.find? (tIs "www_domain") with
  | some _ => (ts, false)
  | none =>
    if wwwApplicable then
      match ts.find? (tIs "www_variant") with
      | some _ => (replaceFirst (tIs "www_variant") renameToWww ts, true)
      | none => (ts, false)
    else (ts, false)

/-- Create the apex test when still absent (check-ipv6.js lines 271-279);
`tests.push` appends.  Creation does not set `serviceUpdated`. -/
def ensureApex (ts : List Test) : List Test :=
  match ts.find? (tIs "apex_domain") with
  | some _ => ts
  | none => ts ++ [⟨"apex_domain", apexName, apexDesc, none⟩]

/-- Create the www test when absent and applicable (lines 281-289). -/
def ensureWww (wwwApplicable : Bool) (ts : List Test) : List Test :=
  if wwwApplicable then
    match ts.find? (tIs "www_domain") with
    | some _ => ts
    | none => ts ++ [⟨"www_domain", wwwName, wwwDesc, none⟩]
  else ts

/-- Write `result := r` into the first test with id `i`. -/
def setResult (i : String) (r : Option Bool) (ts : List Test) : List Test :=
  replaceFirst (tIs i) (fun t => { t with result := r }) ts

/-- `if (test.result !== works) { test.result = works; serviceUpdated = true }`
(check-ipv6.js lines 303-309 for apex, 314-316 for www).  The strict
`!==` distinguishes `null` from both booleans, matching `Option Bool`
inequality. -/
def updateResult (i : String) (works : Bool) (ts : List Test) : List Test × Bool :=
  match ts.find? (tIs i) with
  | some t => if t.result = some works then (ts, false) else (setResult i (some works) ts, true)
  | none => (ts, false)

/-- The www branch of reconciliation (check-ipv6.js lines 311-328): update
the result when a www variant applies, otherwise remove a lingering
`www_domain` test.  The `wwwTest` object reference of the source is the
first `www_domain` element of the current list: the preceding stages
never add, rename or remove a `www_domain` element in the
not-applicable case, so re-finding it here is equivalent. -/
def reconcileWww (wwwApplicable : Bool) (wwwWorks : Bool) (ts : List Test) : List Test × Bool :=
  if wwwApplicable then
    updateResult "www_domain" wwwWorks ts
  else
    match ts.find? (tIs "www_domain") with
    | some _ => (removeFirst (tIs "www_domain") ts, true)
    | none => (ts, false)

/-- JavaScript truthiness of a `true`/`false`/`null` test result
(`wwwTest.result` used as a condition on lines 336, 338, 349, 350). -/
def truthy : Option Bool → Bool
  | some true => true
  | _ => false

/-- Status inference (check-ipv6.js lines 335-343), run only while the
stored status is `unknown`. -/
def inferStatus (apexWorks hasWwwTest : Bool) (wwwResult : Option Bool) : String :=
  if apexWorks && (!hasWwwTest || truthy wwwResult) then "full"
  else if apexWorks || (hasWwwTest && truthy wwwResult) then "partial"
  else "none"

/-- The advisory `suggestedStatus` recomputed in detail mode
(check-ipv6.js lines 347-353). -/
def suggestStatus (apexWorks hasWwwTest : Bool) (wwwResult : Option Bool) : String :=
  if hasWwwTest then
    if apexWorks && truthy wwwResult then "full"
    else if apexWorks || truthy wwwResult then "partial"
    else "none"
  else
    if apexWorks then "full" else "none"

/-- The `result` field read through the first test with the given id
(`wwwTest.result` in the source), `null` when absent. -/
def resultOf (ts : List Test) (i : String) : Option Bool :=
  match ts.find? (tIs i) with
  | some t => t.result
  | none => none

/-- Result of processing one service: the updated registry entry, the
`serviceUpdated` dirty flag, and the audit-relevant console events. -/
structure StepOut where
  service : Service
  dirty : Bool
  logs : List LogEvent
deriving Repr, DecidableEq

/-- The per-service body of the main loop (check-ipv6.js lines 209-377),
starting after the `new URL(service.url)` parse on line 208 (see
`mainLoop` for its throwing behaviour). -/
def processService (env : String → ProbeOutcome) (now : String) (verbose detail : Bool)
    (s : Service) : StepOut :=
  let domains := getDomainVariants s.url
  let apexInfo := checkDomain env domains.apex
  let wwwInfo := checkDomain env domains.www
  let wwwApplicable := domains.www.isSome
  let m1 := migrateApex s.ipv6.tests
  let m2 := migrateWww wwwApplicable m1.1
  let ts3 := ensureApex m2.1
  let ts4 := ensureWww wwwApplicable ts3
  -- line 292: both DNS and HTTP must work
  let apexRaw := apexInfo.hasAAAA && apexInfo.httpWorks
  -- lines 296-301: Azure special case, forced on AAAA presence alone
  let azureOverride := s.id == "azure" && apexInfo.hasAAAA
  let apexWorks := if azureOverride then true else apexRaw
  let m3 := updateResult "apex_domain" apexWorks ts4
  let wwwWorks := wwwInfo.hasAAAA && wwwInfo.httpWorks
  let m4 := reconcileWww wwwApplicable wwwWorks m3.1
  let ts6 := m4.1
  let dirty := m1.2 || m2.2 || m3.2 || m4.2
  -- line 334: the wwwTest reference is non-null exactly when found,
  -- migrated or created above, i.e. when a www variant applies
  let hasWwwTest := wwwApplicable && (ts6.find? (tIs "www_domain")).isSome
  let wwwResultNow : Option Bool := resultOf ts6 "www_domain"
  -- lines 330-343: status advanced only for a dirty service, and only
  -- while it is still `unknown`; last_checked refreshed either way
  let status1 :=
    if dirty && (s.ipv6.status == "unknown") then
      inferStatus apexWorks hasWwwTest wwwResultNow
    else s.ipv6.status
  let suggested := suggestStatus apexWorks hasWwwTest wwwResultNow
  let logs :=
    (if azureOverride && (verbose || detail) then [LogEvent.azureOverride] else []) ++
    (if m3.2 && (verbose || detail) then
      [LogEvent.apexUpdate apexWorks apexInfo.hasAAAA apexInfo.httpWorks] else []) ++
    (if wwwApplicable && m4.2 && (verbose || detail) then
      [LogEvent.wwwUpdate wwwWorks wwwInfo.hasAAAA wwwInfo.httpWorks] else []) ++
    (if dirty && detail && !(status1 == suggested) then
      [LogEvent.statusMismatch status1 suggested] else [])
  ⟨{ s with ipv6 := ⟨status1, some now, ts6⟩ }, dirty, logs⟩

/-- Aggregate state of one pass of the main loop. -/
structure RunState where
  services : List Service
  updated : Bool
  logs : List LogEvent
  aborted : Bool
deriving Repr, DecidableEq

/-- The `for (const service of data.services)` loop (check-ipv6.js lines
207-378).  Line 208 runs `new URL(service.url)` outside any `try`: a
malformed url throws a `TypeError` that rejects `main()`'s promise, so the
loop stops there — the remaining services are neither probed nor touched,
and the final write is never reached (`aborted`). -/
def mainLoop (env : String → ProbeOutcome) (now : String) (verbose detail : Bool) :
    List Service → RunState
  | [] => ⟨[], false, [], false⟩
  | s :: rest =>
    match s.url with
    | none => ⟨s :: rest, false, [], true⟩
    | some _ =>
      let step := processService env now verbose detail s
      let r := mainLoop env now verbose detail rest
      ⟨step.service :: r.services, step.dirty || r.updated, step.logs ++ r.logs, r.aborted⟩

/-- Externally observable outcome of one invocation of the script. -/
structure ProgramOutcome where
  wrote : Bool
  exitCode : Nat
  errorLogged : Bool
deriving Repr, DecidableEq

/-- The whole program (`main().catch(console.error)`, check-ipv6.js lines
197-405).  `storeReadable` models whether `fs.readFile('data/services.yaml')`
succeeds, `writeSucceeds` whether `fs.writeFile` does.  Every rejection of
`main()` — store read failure, the malformed-url `TypeError`, or a write
failure — is handled by the top-level `.catch(console.error)`, which prints
the error; the process therefore always exits with status 0.  The file is
written only when the loop completes with `updated` set (lines 380-402). -/
def runProgram (storeReadable writeSucceeds : Bool) (env : String → ProbeOutcome)
    (now : String) (verbose detail : Bool) (services : List Service) : ProgramOutcome :=
  if storeReadable then
    let r := mainLoop env now verbose detail services
    if r.aborted then ⟨false, 0, true⟩
    else if r.updated then
      if writeSucceeds then ⟨true, 0, false⟩ else ⟨false, 0, true⟩
    else ⟨false, 0, false⟩
  else ⟨false, 0, true⟩

/-! ## Generic lemmas about the list operations -/

theorem find?_append_none {p : Test → Bool} {l₁ : List Test} (l₂ : List Test)
    (h : l₁.find? p = none) : (l₁ ++ l₂).find? p = l₂.find? p := by
  induction l₁ with
  | nil => simp
  | cons a l ih =>
    cases hpa : p a with
    | true => simp [List.find?_cons, hpa] at h
    | false =>
      simp only [List.find?_cons, hpa] at h
      simp [List.find?_cons, hpa, ih h]

theorem find?_append_some {p : Test → Bool} {l₁ : List Test} {t : Test} (l₂ : List Test)
    (h : l₁.find? p = some t) : (l₁ ++ l₂).find? p = some t := by
  induction l₁ with
  | nil => simp at h
  | cons a l ih =>
    cases hpa : p a with
    | true => simp_all [List.find?_cons]
    | false =>
      simp only [List.find?_cons, hpa] at h
      simp [List.find?_cons, hpa, ih h]

theorem find?_append_single_other {p : Test → Bool} {w : Test} (l : List Test)
    (hw : p w = false) : (l ++ [w]).find? p = l.find? p := by
  cases h : l.find? p with
  | none => rw [find?_append_none _ h]; simp [List.find?_cons, hw]
  | some t => exact find?_append_some _ h

theorem length_replaceFirst (p : Test → Bool) (f : Test → Test) (l : List Test) :
    (replaceFirst p f l).length = l.length := by
  induction l with
  | nil => rfl
  | cons a l ih =>
    by_cases hpa : p a = true <;> simp [replaceFirst, hpa, ih]

/-- A `replaceFirst` whose target and image both fail `q` does not change
what `find? q` sees. -/
theorem find?_replaceFirst_other {p q : Test → Bool} {f : Test → Test} (l : List Test)
    (h1 : ∀ t, p t = true → q t = false) (h2 : ∀ t, p t = true → q (f t) = false) :
    (replaceFirst p f l).find? q = l.find? q := by
  induction l with
  | nil => rfl
  | cons a l ih =>
    cases hpa : p a with
    | true => simp [replaceFirst, hpa, List.find?_cons, h1 a hpa, h2 a hpa]
    | false => simp [replaceFirst, hpa, List.find?_cons]; cases q a <;> simp [ih]

/-- Replacing the first `p`-match while keeping `p` satisfied makes
`find? p` return the image. -/
theorem find?_replaceFirst_self {p : Test → Bool} {f : Test → Test} {l : List Test} {t : Test}
    (h : l.find? p = some t) (hf : p (f t) = true) :
    (replaceFirst p f l).find? p = some (f t) := by
  induction l with
  | nil => simp at h
  | cons a l ih =>
    cases hpa : p a with
    | true =>
      simp only [List.find?_cons, hpa] at h
      cases h
      simp [replaceFirst, hpa, List.find?_cons, hf]
    | false =>
      simp only [List.find?_cons, hpa] at h
      simp [replaceFirst, hpa, List.find?_cons, ih h]

/-- Migration: when nothing satisfies `q` yet, renaming the first
`p`-match into a `q`-satisfier makes it the `find? q` result. -/
theorem find?_replaceFirst_new {p q : Test → Bool} {f : Test → Test} {l : List Test} {t : Test}
    (hq : l.find? q = none) (hp : l.find? p = some t) (hf : q (f t) = true) :
    (replaceFirst p f l).find? q = some (f t) := by
  induction l with
  | nil => simp at hp
  | cons a l ih =>
    rw [List.find?_cons] at hq
    cases hqa : q a with
    | true => simp [hqa] at hq
    | false =>
      simp only [hqa] at hq
      cases hpa : p a with
      | true =>
        simp only [List.find?_cons, hpa] at hp
        cases hp
        simp [replaceFirst, hpa, List.find?_cons, hf]
      | false =>
        simp only [List.find?_cons, hpa] at hp
        simp [replaceFirst, hpa, List.find?_cons, hqa, ih hq hp]

theorem countP_replaceFirst_other {p q : Test → Bool} {f : Test → Test} (l : List Test)
    (h1 : ∀ t, p t = true → q t = false) (h2 : ∀ t, p t = true → q (f t) = false) :
    (replaceFirst p f l).countP q = l.countP q := by
  induction l with
  | nil => rfl
  | cons a l ih =>
    cases hpa : p a with
    | true => simp [replaceFirst, hpa, List.countP_cons, h1 a hpa, h2 a hpa]
    | false => simp [replaceFirst, hpa, List.countP_cons, ih]

theorem find?_removeFirst_other {p q : Test → Bool} (l : List Test)
    (h1 : ∀ t, p t = true → q t = false) :
    (removeFirst p l).find? q = l.find? q := by
  induction l with
  | nil => rfl
  | cons a l ih =>
    cases hpa : p a with
    | true => simp [removeFirst, hpa, List.find?_cons, h1 a hpa]
    | false => simp [removeFirst, hpa, List.find?_cons]; cases q a <;> simp [ih]

/-- Removing the first `p`-match from a list holding at most one leaves
none. -/
theorem find?_removeFirst_self {p : Test → Bool} {l : List Test}
    (h : l.countP p ≤ 1) : (removeFirst p l).find? p = none := by
  induction l with
  | nil => rfl
  | cons a l ih =>
    rw [List.countP_cons] at h
    cases hpa : p a with
    | true =>
      simp only [hpa, if_true] at h
      have hz : l.countP p = 0 := by omega
      rw [List.countP_eq_zero] at hz
      simp only [removeFirst, hpa, if_true]
      rw [List.find?_eq_none]
      exact hz
    | false =>
      simp only [hpa] at h
      simp only [removeFirst, hpa]
      simp only [Bool.false_eq_true, if_false]
      rw [List.find?_cons, hpa]
      exact ih (by simpa using h)

/-! ## Derived views of one processing step -/

/-- Whether a www variant applies to the service (`domains.www` truthy). -/
def wwwApplicableOf (s : Service) : Bool := (getDomainVariants s.url).www.isSome

/-- The apex probe outcome of the run for this service. -/
def apexInfoOf (env : String → ProbeOutcome) (s : Service) : ProbeOutcome :=
  checkDomain env (getDomainVariants s.url).apex

/-- The www probe outcome of the run for this service. -/
def wwwInfoOf (env : String → ProbeOutcome) (s : Service) : ProbeOutcome :=
  checkDomain env (getDomainVariants s.url).www

/-- The `apexWorks` value after the override (check-ipv6.js lines 292-301). -/
def apexWorksOf (env : String → ProbeOutcome) (s : Service) : Bool :=
  if s.id == "azure" && (apexInfoOf env s).hasAAAA then true
  else (apexInfoOf env s).hasAAAA && (apexInfoOf env s).httpWorks

/-- The `wwwWorks` value (check-ipv6.js line 313). -/
def wwwWorksOf (env : String → ProbeOutcome) (s : Service) : Bool :=
  (wwwInfoOf env s).hasAAAA && (wwwInfoOf env s).httpWorks

/-- The tests pipeline of one step, written as a composition of its
stages; definitionally equal to the tests field computed by
`processService`. -/
def testsAfter (env : String → ProbeOutcome) (s : Service) : List Test :=
  (reconcileWww (wwwApplicableOf s) (wwwWorksOf env s)
    ((updateResult "apex_domain" (apexWorksOf env s)
      (ensureWww (wwwApplicableOf s)
        (ensureApex (migrateWww (wwwApplicableOf s) (migrateApex s.ipv6.tests).1).1))).1)).1

/-- The `serviceUpdated` flag of one step, as a composition of the stage
flags. -/
def dirtyAfter (env : String → ProbeOutcome) (s : Service) : Bool :=
  (migrateApex s.ipv6.tests).2 ||
  (migrateWww (wwwApplicableOf s) (migrateApex s.ipv6.tests).1).2 ||
  (updateResult "apex_domain" (apexWorksOf env s)
    (ensureWww (wwwApplicableOf s)
      (ensureApex (migrateWww (wwwApplicableOf s) (migrateApex s.ipv6.tests).1).1))).2 ||
  (reconcileWww (wwwApplicableOf s) (wwwWorksOf env s)
    ((updateResult "apex_domain" (apexWorksOf env s)
      (ensureWww (wwwApplicableOf s)
        (ensureApex (migrateWww (wwwApplicableOf s) (migrateApex s.ipv6.tests).1).1))).1)).2

theorem processService_tests (env : String → ProbeOutcome) (now : String) (v d : Bool)
    (s : Service) : (processService env now v d s).service.ipv6.tests = testsAfter env s := rfl

theorem processService_dirty (env : String → ProbeOutcome) (now : String) (v d : Bool)
    (s : Service) : (processService env now v d s).dirty = dirtyAfter env s := rfl

theorem processService_id (env : String → ProbeOutcome) (now : String) (v d : Bool)
    (s : Service) : (processService env now v d s).service.id = s.id := rfl

theorem processService_name (env : String → ProbeOutcome) (now : String) (v d : Bool)
    (s : Service) : (processService env now v d s).service.name = s.name := rfl

theorem processService_url (env : String → ProbeOutcome) (now : String) (v d : Bool)
    (s : Service) : (processService env now v d s).service.url = s.url := rfl

theorem processService_last_checked (env : String → ProbeOutcome) (now : String) (v d : Bool)
    (s : Service) : (processService env now v d s).service.ipv6.last_checked = some now := rfl

theorem processService_status (env : String → ProbeOutcome) (now : String) (v d : Bool)
    (s : Service) :
    (processService env now v d s).service.ipv6.status =
      (if dirtyAfter env s && (s.ipv6.status == "unknown") then
        inferStatus (apexWorksOf env s)
          (wwwApplicableOf s && ((testsAfter env s).find? (tIs "www_domain")).isSome)
          (resultOf (testsAfter env s) "www_domain")
      else s.ipv6.status) := rfl

theorem resultOf_eq {ts : List Test} {i : String} {t : Test}
    (h : ts.find? (tIs i) = some t) : resultOf ts i = t.result := by
  simp [resultOf, h]

/-! ## Facts about the test-id predicate -/

theorem tIs_iff {i : String} {t : Test} : tIs i t = true ↔ t.id = i := by
  simp [tIs, renameToApex, renameToWww]

theorem tIs_of_id {i : String} {t : Test} (h : t.id = i) : tIs i t = true := tIs_iff.mpr h

theorem tIs_ne {i j : String} (hij : j ≠ i) {t : Test} (h : tIs i t = true) :
    tIs j t = false := by
  rw [tIs_iff] at h
  simp [tIs, h]
  exact fun hc => hij hc.symm

/-! ## Stage lemmas -/

theorem migrateApex_found {ts : List Test} {t : Test}
    (h : ts.find? (tIs "apex_domain") = some t) : migrateApex ts = (ts, false) := by
  simp [migrateApex, h]

theorem migrateWww_found {b : Bool} {ts : List Test} {t : Test}
    (h : ts.find? (tIs "www_domain") = some t) : migrateWww b ts = (ts, false) := by
  simp [migrateWww, h]

theorem migrateWww_not_applicable (ts : List Test) : migrateWww false ts = (ts, false) := by
  unfold migrateWww
  cases h : ts.find? (tIs "www_domain") <;> simp

theorem ensureApex_found {ts : List Test} {t : Test}
    (h : ts.find? (tIs "apex_domain") = some t) : ensureApex ts = ts := by
  simp [ensureApex, h]

theorem ensureWww_found {ts : List Test} {t : Test} (b : Bool)
    (h : ts.find? (tIs "www_domain") = some t) : ensureWww b ts = ts := by
  cases b <;> simp [ensureWww, h]

theorem ensureWww_not_applicable (ts : List Test) : ensureWww false ts = ts := rfl

theorem ensureApex_present (ts : List Test) :
    ∃ t, (ensureApex ts).find? (tIs "apex_domain") = some t := by
  cases h : ts.find? (tIs "apex_domain") with
  | some t => exact ⟨t, by rw [ensureApex_found h]; exact h⟩
  | none =>
    refine ⟨⟨"apex_domain", apexName, apexDesc, none⟩, ?_⟩
    simp only [ensureApex, h]
    rw [find?_append_none _ h]
    simp [List.find?_cons, tIs]

theorem ensureWww_present (ts : List Test) :
    ∃ t, (ensureWww true ts).find? (tIs "www_domain") = some t := by
  cases h : ts.find? (tIs "www_domain") with
  | some t => exact ⟨t, by rw [ensureWww_found true h]; exact h⟩
  | none =>
    refine ⟨⟨"www_domain", wwwName, wwwDesc, none⟩, ?_⟩
    simp only [ensureWww, if_true, h]
    rw [find?_append_none _ h]
    simp [List.find?_cons, tIs]

theorem ensureWww_find_apex (b : Bool) (ts : List Test) :
    (ensureWww b ts).find? (tIs "apex_domain") = ts.find? (tIs "apex_domain") := by
  cases b with
  | false => rfl
  | true =>
    cases h : ts.find? (tIs "www_domain") with
    | some t => rw [ensureWww_found true h]
    | none =>
      simp only [ensureWww, if_true, h]
      exact find?_append_single_other ts (by decide)

theorem setResult_find_self {i : String} {ts : List Test} {t : Test} (r : Option Bool)
    (h : ts.find? (tIs i) = some t) :
    (setResult i r ts).find? (tIs i) = some { t with result := r } := by
  have ht : tIs i t = true := List.find?_some h
  have hf : tIs i ({ t with result := r }) = true := by
    rw [tIs_iff] at ht ⊢
    exact ht
  exact find?_replaceFirst_self h hf

theorem setResult_find_other {i j : String} (hij : j ≠ i) (r : Option Bool) (ts : List Test) :
    (setResult i r ts).find? (tIs j) = ts.find? (tIs j) := by
  apply find?_replaceFirst_other
  · exact fun t ht => tIs_ne hij ht
  · intro t ht
    have : tIs i ({ t with result := r }) = true := by
      rw [tIs_iff] at ht ⊢
      exact ht
    exact tIs_ne hij this

theorem updateResult_eq {i : String} {w : Bool} {ts : List Test} {t : Test}
    (h : ts.find? (tIs i) = some t) (he : t.result = some w) :
    updateResult i w ts = (ts, false) := by
  simp [updateResult, h, he]

theorem updateResult_ne {i : String} {w : Bool} {ts : List Test} {t : Test}
    (h : ts.find? (tIs i) = some t) (he : ¬ t.result = some w) :
    updateResult i w ts = (setResult i (some w) ts, true) := by
  simp [updateResult, h, he]

/-- After `updateResult`, the first test with id `i` carries the fresh
value, with all other fields preserved. -/
theorem updateResult_find {i : String} {w : Bool} {ts : List Test} {t : Test}
    (h : ts.find? (tIs i) = some t) :
    ∃ t', (updateResult i w ts).1.find? (tIs i) = some t' ∧
      t'.result = some w ∧ t'.id = t.id ∧ t'.name = t.name ∧
      t'.description = t.description := by
  by_cases he : t.result = some w
  · exact ⟨t, by rw [updateResult_eq h he]; exact h, he, rfl, rfl, rfl⟩
  · refine ⟨{ t with result := some w }, ?_, rfl, rfl, rfl, rfl⟩
    rw [updateResult_ne h he]
    exact setResult_find_self (some w) h

theorem updateResult_find_other {i j : String} (hij : j ≠ i) (w : Bool) (ts : List Test) :
    (updateResult i w ts).1.find? (tIs j) = ts.find? (tIs j) := by
  unfold updateResult
  cases h : ts.find? (tIs i) with
  | none => rfl
  | some t =>
    by_cases he : t.result = some w
    · simp [he]
    · simp only [he, if_neg he]
      exact setResult_find_other hij (some w) ts

theorem reconcileWww_find_apex (b w : Bool) (ts : List Test) :
    (reconcileWww b w ts).1.find? (tIs "apex_domain") = ts.find? (tIs "apex_domain") := by
  cases b with
  | true => exact updateResult_find_other (by decide) w ts
  | false =>
    simp only [reconcileWww, Bool.false_eq_true, if_false]
    cases h : ts.find? (tIs "www_domain") with
    | none => rfl
    | some t =>
      exact find?_removeFirst_other ts (fun t ht => tIs_ne (by decide) ht)

theorem setResult_countP_other {i j : String} (hij : j ≠ i) (r : Option Bool) (ts : List Test) :
    (setResult i r ts).countP (tIs j) = ts.countP (tIs j) := by
  apply countP_replaceFirst_other
  · exact fun t ht => tIs_ne hij ht
  · intro t ht
    have : tIs i ({ t with result := r }) = true := by
      rw [tIs_iff] at ht ⊢
      exact ht
    exact tIs_ne hij this

theorem updateResult_countP_other {i j : String} (hij : j ≠ i) (w : Bool) (ts : List Test) :
    (updateResult i w ts).1.countP (tIs j) = ts.countP (tIs j) := by
  unfold updateResult
  cases h : ts.find? (tIs i) with
  | none => rfl
  | some t =>
    by_cases he : t.result = some w
    · simp [he]
    · simp only [he, if_neg he]
      exact setResult_countP_other hij (some w) ts

theorem migrateApex_countP_www (ts : List Test) :
    (migrateApex ts).1.countP (tIs "www_domain") = ts.countP (tIs "www_domain") := by
  unfold migrateApex
  cases h1 : ts.find? (tIs "apex_domain") with
  | some t => rfl
  | none =>
    cases h2 : ts.find? (tIs "aaaa_record") with
    | none => rfl
    | some t =>
      apply countP_replaceFirst_other
      · exact fun t ht => tIs_ne (by decide) ht
      · intro t ht
        simp [tIs, renameToApex, renameToWww]

theorem ensureApex_countP_www (ts : List Test) :
    (ensureApex ts).countP (tIs "www_domain") = ts.countP (tIs "www_domain") := by
  unfold ensureApex
  cases h : ts.find? (tIs "apex_domain") with
  | some t => rfl
  | none => simp [List.countP_append, List.countP_cons, tIs]

/-- After one step, the first `apex_domain` test carries exactly the
override-adjusted conjunction computed this run. -/
theorem testsAfter_find_apex (env : String → ProbeOutcome) (s : Service) :
    ∃ t, (testsAfter env s).find? (tIs "apex_domain") = some t ∧
      t.result = some (apexWorksOf env s) := by
  unfold testsAfter
  obtain ⟨t3, h3⟩ :=
    ensureApex_present (migrateWww (wwwApplicableOf s) (migrateApex s.ipv6.tests).1).1
  have h4 :
      (ensureWww (wwwApplicableOf s)
        (ensureApex (migrateWww (wwwApplicableOf s) (migrateApex s.ipv6.tests).1).1)).find?
        (tIs "apex_domain") = some t3 := by
    rw [ensureWww_find_apex]
    exact h3
  obtain ⟨t5, h5, hres, -, -, -⟩ := updateResult_find (w := apexWorksOf env s) h4
  refine ⟨t5, ?_, hres⟩
  rw [reconcileWww_find_apex]
  exact h5

/-- After one step with an applicable www variant, the first `www_domain`
test carries exactly the fresh conjunction for the www hostname. -/
theorem testsAfter_find_www_app (env : String → ProbeOutcome) (s : Service)
    (h : wwwApplicableOf s = true) :
    ∃ t, (testsAfter env s).find? (tIs "www_domain") = some t ∧
      t.result = some (wwwWorksOf env s) := by
  unfold testsAfter
  rw [h]
  obtain ⟨t4, h4⟩ :=
    ensureWww_present (ensureApex (migrateWww true (migrateApex s.ipv6.tests).1).1)
  have h5 :
      ((updateResult "apex_domain" (apexWorksOf env s)
        (ensureWww true
          (ensureApex (migrateWww true (migrateApex s.ipv6.tests).1).1))).1).find?
        (tIs "www_domain") = some t4 := by
    rw [updateResult_find_other (by decide)]
    exact h4
  obtain ⟨t6, h6, hres, -, -, -⟩ := updateResult_find (w := wwwWorksOf env s) h5
  exact ⟨t6, h6, hres⟩

/-- After one step with no applicable www variant, no `www_domain` test
remains, provided the stored ids were not duplicated. -/
theorem testsAfter_find_www_notapp (env : String → ProbeOutcome) (s : Service)
    (h : wwwApplicableOf s = false)
    (hc : s.ipv6.tests.countP (tIs "www_domain") ≤ 1) :
    (testsAfter env s).find? (tIs "www_domain") = none := by
  unfold testsAfter
  rw [h, migrateWww_not_applicable, ensureWww_not_applicable]
  have hc5 :
      ((updateResult "apex_domain" (apexWorksOf env s)
        (ensureApex (migrateApex s.ipv6.tests).1)).1).countP (tIs "www_domain") ≤ 1 := by
    rw [updateResult_countP_other (by decide), ensureApex_countP_www,
      migrateApex_countP_www]
    exact hc
  simp only [reconcileWww, Bool.false_eq_true, if_false]
  cases h5 :
      ((updateResult "apex_domain" (apexWorksOf env s)
        (ensureApex (migrateApex s.ipv6.tests).1)).1).find? (tIs "www_domain") with
  | none => exact h5
  | some t => exact find?_removeFirst_self hc5

theorem countP_eq_zero_of_find?_none {p : Test → Bool} {l : List Test}
    (h : l.find? p = none) : l.countP p = 0 := by
  rw [List.countP_eq_zero]
  rw [List.find?_eq_none] at h
  exact h

theorem countP_replaceFirst_congr {p q : Test → Bool} {f : Test → Test} (l : List Test)
    (h : ∀ t, q (f t) = q t) : (replaceFirst p f l).countP q = l.countP q := by
  induction l with
  | nil => rfl
  | cons a l ih =>
    cases hpa : p a with
    | true => simp [replaceFirst, hpa, List.countP_cons, h a]
    | false => simp [replaceFirst, hpa, List.countP_cons, ih]

theorem countP_removeFirst_other {p q : Test → Bool} (l : List Test)
    (h1 : ∀ t, p t = true → q t = false) :
    (removeFirst p l).countP q = l.countP q := by
  induction l with
  | nil => rfl
  | cons a l ih =>
    cases hpa : p a with
    | true => simp [removeFirst, hpa, List.countP_cons, h1 a hpa]
    | false => simp [removeFirst, hpa, List.countP_cons, ih]

/-- Renaming the only `p`-match away leaves no `p`-match. -/
theorem countP_replaceFirst_elim {p : Test → Bool} {f : Test → Test} {l : List Test}
    (h : l.countP p = 1) (hf : ∀ t, p (f t) = false) :
    (replaceFirst p f l).countP p = 0 := by
  induction l with
  | nil => simp at h
  | cons a l ih =>
    rw [List.countP_cons] at h
    cases hpa : p a with
    | true =>
      rw [hpa] at h
      simp only [if_true] at h
      have hz : l.countP p = 0 := by omega
      simp [replaceFirst, hpa, List.countP_cons, hf a, hz]
    | false =>
      rw [hpa] at h
      simp only [Bool.false_eq_true, if_false] at h
      simp [replaceFirst, hpa, List.countP_cons, ih (by omega)]

/-- Renaming some element into a fresh `q`-satisfier in a `q`-free list
yields exactly one `q`-match. -/
theorem countP_replaceFirst_intro {p q : Test → Bool} {f : Test → Test} {l : List Test} {t : Test}
    (hz : l.countP q = 0) (hp : l.find? p = some t) (hf : q (f t) = true) :
    (replaceFirst p f l).countP q = 1 := by
  induction l with
  | nil => simp at hp
  | cons a l ih =>
    rw [List.countP_cons] at hz
    have hza : q a = false := by
      cases hqa : q a with
      | false => rfl
      | true => rw [hqa] at hz; simp at hz
    have hzl : l.countP q = 0 := by
      rw [hza] at hz
      simpa using hz
    cases hpa : p a with
    | true =>
      simp only [List.find?_cons, hpa] at hp
      cases hp
      simp [replaceFirst, hpa, List.countP_cons, hf, hzl]
    | false =>
      simp only [List.find?_cons, hpa] at hp
      simp [replaceFirst, hpa, List.countP_cons, hza, ih hzl hp]

/-! ## Targeted preservation lemmas for ids untouched by a stage -/

theorem migrateApex_find_tIs {j : String} (h1 : j ≠ "aaaa_record") (h2 : j ≠ "apex_domain")
    (ts : List Test) : (migrateApex ts).1.find? (tIs j) = ts.find? (tIs j) := by
  unfold migrateApex
  cases ha : ts.find? (tIs "apex_domain") with
  | some t => rfl
  | none =>
    cases hb : ts.find? (tIs "aaaa_record") with
    | none => rfl
    | some t =>
      apply find?_replaceFirst_other
      · exact fun t ht => tIs_ne h1 ht
      · intro t ht
        simp [tIs, renameToApex, renameToWww]
        exact fun hc => h2 hc.symm

theorem migrateApex_countP_tIs {j : String} (h1 : j ≠ "aaaa_record") (h2 : j ≠ "apex_domain")
    (ts : List Test) : (migrateApex ts).1.countP (tIs j) = ts.countP (tIs j) := by
  unfold migrateApex
  cases ha : ts.find? (tIs "apex_domain") with
  | some t => rfl
  | none =>
    cases hb : ts.find? (tIs "aaaa_record") with
    | none => rfl
    | some t =>
      apply countP_replaceFirst_other
      · exact fun t ht => tIs_ne h1 ht
      · intro t ht
        simp [tIs, renameToApex, renameToWww]
        exact fun hc => h2 hc.symm

theorem migrateWww_find_tIs {j : String} (h1 : j ≠ "www_variant") (h2 : j ≠ "www_domain")
    (b : Bool) (ts : List Test) : (migrateWww b ts).1.find? (tIs j) = ts.find? (tIs j) := by
  unfold migrateWww
  cases ha : ts.find? (tIs "www_domain") with
  | some t => rfl
  | none =>
    cases b with
    | false => simp
    | true =>
      cases hb : ts.find? (tIs "www_variant") with
      | none => simp
      | some t =>
        simp only [if_true]
        apply find?_replaceFirst_other
        · exact fun t ht => tIs_ne h1 ht
        · intro t ht
          simp [tIs, renameToApex, renameToWww]
          exact fun hc => h2 hc.symm

theorem migrateWww_countP_tIs {j : String} (h1 : j ≠ "www_variant") (h2 : j ≠ "www_domain")
    (b : Bool) (ts : List Test) : (migrateWww b ts).1.countP (tIs j) = ts.countP (tIs j) := by
  unfold migrateWww
  cases ha : ts.find? (tIs "www_domain") with
  | some t => rfl
  | none =>
    cases b with
    | false => simp
    | true =>
      cases hb : ts.find? (tIs "www_variant") with
      | none => simp
      | some t =>
        simp only [if_true]
        apply countP_replaceFirst_other
        · exact fun t ht => tIs_ne h1 ht
        · intro t ht
          simp [tIs, renameToApex, renameToWww]
          exact fun hc => h2 hc.symm

theorem ensureApex_find_tIs {j : String} (h2 : j ≠ "apex_domain") (ts : List Test) :
    (ensureApex ts).find? (tIs j) = ts.find? (tIs j) := by
  unfold ensureApex
  cases ha : ts.find? (tIs "apex_domain") with
  | some t => rfl
  | none =>
    apply find?_append_single_other
    simp [tIs, renameToApex, renameToWww]
    exact fun hc => h2 hc.symm

theorem ensureApex_countP_tIs {j : String} (h2 : j ≠ "apex_domain") (ts : List Test) :
    (ensureApex ts).countP (tIs j) = ts.countP (tIs j) := by
  unfold ensureApex
  cases ha : ts.find? (tIs "apex_domain") with
  | some t => rfl
  | none =>
    rw [List.countP_append]
    have : ([(⟨"apex_domain", apexName, apexDesc, none⟩ : Test)]).countP (tIs j) = 0 := by
      rw [List.countP_eq_zero]
      intro a hx
      rw [List.mem_singleton] at hx
      subst hx
      simp [tIs, renameToApex, renameToWww]
      exact fun hc => h2 hc.symm
    omega

theorem ensureWww_find_tIs {j : String} (h2 : j ≠ "www_domain") (b : Bool) (ts : List Test) :
    (ensureWww b ts).find? (tIs j) = ts.find? (tIs j) := by
  cases b with
  | false => rfl
  | true =>
    unfold ensureWww
    cases ha : ts.find? (tIs "www_domain") with
    | some t => simp
    | none =>
      simp only [if_true]
      apply find?_append_single_other
      simp [tIs, renameToApex, renameToWww]
      exact fun hc => h2 hc.symm

theorem ensureWww_countP_tIs {j : String} (h2 : j ≠ "www_domain") (b : Bool) (ts : List Test) :
    (ensureWww b ts).countP (tIs j) = ts.countP (tIs j) := by
  cases b with
  | false => rfl
  | true =>
    unfold ensureWww
    cases ha : ts.find? (tIs "www_domain") with
    | some t => simp
    | none =>
      simp only [if_true]
      rw [List.countP_append]
      have : ([(⟨"www_domain", wwwName, wwwDesc, none⟩ : Test)]).countP (tIs j) = 0 := by
        rw [List.countP_eq_zero]
        intro a hx
        rw [List.mem_singleton] at hx
        subst hx
        simp [tIs, renameToApex, renameToWww]
        exact fun hc => h2 hc.symm
      omega

theorem updateResult_countP_congr (i : String) (w : Bool) (q : Test → Bool) (ts : List Test)
    (h : ∀ t r, q { t with result := r } = q t) :
    (updateResult i w ts).1.countP q = ts.countP q := by
  unfold updateResult
  cases hf : ts.find? (tIs i) with
  | none => rfl
  | some t =>
    by_cases he : t.result = some w
    · simp [he]
    · simp only [he, if_neg he]
      exact countP_replaceFirst_congr ts (fun t => h t (some w))

theorem reconcileWww_countP_tIs {j : String} (h2 : j ≠ "www_domain") (b w : Bool)
    (ts : List Test) : (reconcileWww b w ts).1.countP (tIs j) = ts.countP (tIs j) := by
  cases b with
  | true => exact updateResult_countP_congr "www_domain" w (tIs j) ts (fun t r => rfl)
  | false =>
    simp only [reconcileWww, Bool.false_eq_true, if_false]
    cases h : ts.find? (tIs "www_domain") with
    | none => rfl
    | some t => exact countP_removeFirst_other ts (fun t ht => tIs_ne h2 ht)

/-! ## The no-op characterization and loop-level lemmas -/

theorem wwwApplicableOf_congr {s s' : Service} (h : s'.url = s.url) :
    wwwApplicableOf s' = wwwApplicableOf s := by
  unfold wwwApplicableOf
  rw [h]

theorem apexWorksOf_congr (env : String → ProbeOutcome) {s s' : Service}
    (hid : s'.id = s.id) (hurl : s'.url = s.url) : apexWorksOf env s' = apexWorksOf env s := by
  unfold apexWorksOf apexInfoOf
  rw [hid, hurl]

theorem wwwWorksOf_congr (env : String → ProbeOutcome) {s s' : Service}
    (hurl : s'.url = s.url) : wwwWorksOf env s' = wwwWorksOf env s := by
  unfold wwwWorksOf wwwInfoOf
  rw [hurl]

/-- When the stored tests already agree with this run's computed values —
the apex test present and fresh, the www test present and fresh when a
www variant applies, absent when not — the step changes nothing but
`last_checked`: no migration fires, no result is written, nothing is
removed, so the service is not dirty and its status is untouched. -/
theorem processService_noop (env : String → ProbeOutcome) (now : String) (v d : Bool)
    (s : Service) (ta : Test)
    (hA : s.ipv6.tests.find? (tIs "apex_domain") = some ta)
    (hAr : ta.result = some (apexWorksOf env s))
    (hW1 : wwwApplicableOf s = true → ∃ tw,
      s.ipv6.tests.find? (tIs "www_domain") = some tw ∧
      tw.result = some (wwwWorksOf env s))
    (hW2 : wwwApplicableOf s = false → s.ipv6.tests.find? (tIs "www_domain") = none) :
    (processService env now v d s).service.ipv6.tests = s.ipv6.tests ∧
    (processService env now v d s).service.ipv6.status = s.ipv6.status ∧
    (processService env now v d s).dirty = false := by
  have e1 : migrateApex s.ipv6.tests = (s.ipv6.tests, false) := migrateApex_found hA
  have e3 : ensureApex s.ipv6.tests = s.ipv6.tests := ensureApex_found hA
  have e5 : updateResult "apex_domain" (apexWorksOf env s) s.ipv6.tests =
      (s.ipv6.tests, false) := updateResult_eq hA hAr
  have key : testsAfter env s = s.ipv6.tests ∧ dirtyAfter env s = false := by
    cases hb : wwwApplicableOf s with
    | true =>
      obtain ⟨tw, hw, hwr⟩ := hW1 hb
      have e2 : migrateWww true s.ipv6.tests = (s.ipv6.tests, false) := migrateWww_found hw
      have e4 : ensureWww true s.ipv6.tests = s.ipv6.tests := ensureWww_found true hw
      have e6 : reconcileWww true (wwwWorksOf env s) s.ipv6.tests = (s.ipv6.tests, false) := by
        simp only [reconcileWww, if_true]
        exact updateResult_eq hw hwr
      constructor
      · simp only [testsAfter, hb, e1, e2, e3, e4, e5, e6]
      · simp only [dirtyAfter, hb, e1, e2, e3, e4, e5, e6, Bool.or_self, Bool.or_false]
    | false =>
      have hwn := hW2 hb
      have e2 : migrateWww false s.ipv6.tests = (s.ipv6.tests, false) :=
        migrateWww_not_applicable s.ipv6.tests
      have e4 : ensureWww false s.ipv6.tests = s.ipv6.tests := rfl
      have e6 : reconcileWww false (wwwWorksOf env s) s.ipv6.tests = (s.ipv6.tests, false) := by
        simp only [reconcileWww, Bool.false_eq_true, if_false, hwn]
      constructor
      · simp only [testsAfter, hb, e1, e2, e3, e4, e5, e6]
      · simp only [dirtyAfter, hb, e1, e2, e3, e4, e5, e6, Bool.or_self, Bool.or_false]
  refine ⟨?_, ?_, ?_⟩
  · rw [processService_tests, key.1]
  · rw [processService_status, key.2]
    simp
  · rw [processService_dirty, key.2]

/-- When every url parses, the loop runs to completion: no abort, every
service is processed, and the run is `updated` iff some service came out
dirty. -/
theorem mainLoop_no_abort (env : String → ProbeOutcome) (now : String) (v d : Bool)
    (svcs : List Service) (h : ∀ s ∈ svcs, s.url.isSome = true) :
    (mainLoop env now v d svcs).aborted = false ∧
    (mainLoop env now v d svcs).services =
      svcs.map (fun s => (processService env now v d s).service) ∧
    (mainLoop env now v d svcs).updated =
      svcs.any (fun s => (processService env now v d s).dirty) := by
  induction svcs with
  | nil => exact ⟨rfl, rfl, rfl⟩
  | cons s rest ih =>
    have hs : s.url.isSome = true := h s (List.mem_cons_self s rest)
    obtain ⟨u, hu⟩ := Option.isSome_iff_exists.mp hs
    have hrest : ∀ s' ∈ rest, s'.url.isSome = true :=
      fun s' hs' => h s' (List.mem_cons_of_mem s hs')
    obtain ⟨ih1, ih2, ih3⟩ := ih hrest
    simp only [mainLoop, hu, List.map_cons, List.any_cons]
    exact ⟨ih1, by rw [ih2], by rw [ih3]⟩

/-! ## Concrete fixtures for counterexamples and witnesses -/

/-- All probes succeed. -/
def envAllTrue : String → ProbeOutcome := fun _ => ⟨true, true, true⟩

/-- AAAA records are present but the IPv6 HTTP probe fails (times out). -/
def envAaaaOnly : String → ProbeOutcome := fun _ => ⟨true, true, false⟩

/-- All probes fail. -/
def envAllFalse : String → ProbeOutcome := fun _ => ⟨false, false, false⟩

def azureSvc : Service :=
  ⟨"azure", "Azure", some "azure.microsoft.com", ⟨"unknown", none, []⟩⟩

def exampleSvc : Service :=
  ⟨"example", "Example", some "example.com", ⟨"unknown", none, []⟩⟩

/-- The overridden endpoint with a two-label hostname, so that a www
variant applies to it. -/
def azureWwwSvc : Service :=
  ⟨"azure", "Azure", some "azure.com", ⟨"unknown", none, []⟩⟩

def wwwSubSvc : Service :=
  ⟨"wstore", "WStore", some "www.store.example.com", ⟨"unknown", none, []⟩⟩

def subSvc : Service :=
  ⟨"store", "Store", some "store.example.com",
    ⟨"unknown", none, [⟨"www_domain", wwwName, wwwDesc, some true⟩]⟩⟩

def unknownCleanSvc : Service :=
  ⟨"x2", "X2", some "x.example.com",
    ⟨"unknown", none, [⟨"apex_domain", apexName, apexDesc, some true⟩]⟩⟩

def freshSvc : Service :=
  ⟨"x3", "X3", some "x.example.com", ⟨"unknown", none, []⟩⟩

def cleanSvc : Service :=
  ⟨"x4", "X4", some "x.example.com",
    ⟨"full", none, [⟨"apex_domain", apexName, apexDesc, some true⟩]⟩⟩

def legacySvc : Service :=
  ⟨"leg", "Legacy", some "example.org",
    ⟨"unknown", none,
      [⟨"aaaa_record", "AAAA Record", "Has AAAA records", some true⟩,
       ⟨"www_variant", "WWW Variant", "WWW variant works", some true⟩]⟩⟩

def badSvc : Service := ⟨"bad", "Bad", none, ⟨"unknown", none, []⟩⟩

def tailSvc : Service :=
  ⟨"tail", "Tail", some "tail.example.com", ⟨"unknown", none, []⟩⟩

/-! ## C1 -/

/-- C1 (counterexample): the claim says AAAA presence alone never yields
`result = true` for any endpoint, but for the endpoint with id `azure`
the override forces the apex result to `true` when AAAA records are
present even though the HTTP probe failed. -/
theorem C1_counterexample :
    (envAaaaOnly "azure.microsoft.com").hasAAAA = true ∧
    (envAaaaOnly "azure.microsoft.com").httpWorks = false ∧
    ((processService envAaaaOnly "2026-01-01" false false azureSvc).service.ipv6.tests.find?
      (tIs "apex_domain")).map (fun t => t.result) = some (some true) := by
  refine ⟨rfl, rfl, ?_⟩
  decide

/-- C1 (amended): for every endpoint not subject to the override policy
(id ≠ `azure`), the persisted apex result is the conjunction of AAAA
presence and IPv6 HTTP reachability; and for every endpoint — the
overridden one included, since the override touches only the apex — the
www result (when a www variant applies) is that conjunction for the www
hostname.  Neither AAAA presence alone nor HTTP reachability alone
yields `result = true` in these cases. -/
theorem C1_amended (env : String → ProbeOutcome) (now : String) (v d : Bool) (s : Service) :
    (s.id ≠ "azure" →
      ((processService env now v d s).service.ipv6.tests.find? (tIs "apex_domain")).map
        (fun t => t.result) =
        some (some ((apexInfoOf env s).hasAAAA && (apexInfoOf env s).httpWorks))) ∧
    (wwwApplicableOf s = true →
      ((processService env now v d s).service.ipv6.tests.find? (tIs "www_domain")).map
        (fun t => t.result) =
        some (some ((wwwInfoOf env s).hasAAAA && (wwwInfoOf env s).httpWorks))) := by
  constructor
  · intro haz
    have hc : ¬ ((s.id == "azure" && (apexInfoOf env s).hasAAAA) = true) := by
      simp [haz]
    have hw : apexWorksOf env s
        = ((apexInfoOf env s).hasAAAA && (apexInfoOf env s).httpWorks) := by
      unfold apexWorksOf
      rw [if_neg hc]
    rw [processService_tests]
    obtain ⟨t, ht, hr⟩ := testsAfter_find_apex env s
    rw [ht]
    simp [hr, hw]
  · intro happ
    rw [processService_tests]
    obtain ⟨t, ht, hr⟩ := testsAfter_find_www_app env s happ
    rw [ht]
    simp [hr, wwwWorksOf]

/-- C1 (witness): a non-overridden endpoint with AAAA present but HTTP
failing ends the run with `apex_domain.result = false`; and even the
overridden `azure` endpoint, given an applicable www variant, records
`www_domain.result = false` under the same probes — the override spares
the www conjunction. -/
theorem C1_witness :
    (((processService envAaaaOnly "2026-01-01" false false exampleSvc).service.ipv6.tests.find?
      (tIs "apex_domain")).map (fun t => t.result) = some (some false)) ∧
    (((processService envAaaaOnly "2026-01-01" false false azureWwwSvc).service.ipv6.tests.find?
      (tIs "www_domain")).map (fun t => t.result) = some (some false)) := by
  have h1 := (C1_amended envAaaaOnly "2026-01-01" false false exampleSvc).1 (by decide)
  have h2 := (C1_amended envAaaaOnly "2026-01-01" false false azureWwwSvc).2 (by decide)
  constructor
  · rw [h1]
    decide
  · rw [h2]
    decide

/-! ## C2 -/

/-- The status inference rule exactly as the claim words it: when no www
variant applies the apex result alone decides full vs none; otherwise
both true gives full, exactly one gives partial, neither gives none.
Modelled from the claim to compare against `inferStatus`. -/
def specStatus (apexWorks : Bool) (www : Option Bool) : String :=
  match www with
  | none => if apexWorks then "full" else "none"
  | some w =>
    if apexWorks && w then "full"
    else if apexWorks || w then "partial"
    else "none"

theorem inferStatus_www (a w : Bool) : inferStatus a true (some w) = specStatus a (some w) := by
  cases a <;> cases w <;> rfl

theorem inferStatus_noWww (a : Bool) (r : Option Bool) :
    inferStatus a false r = specStatus a none := by
  cases a <;> rfl

/-- C2 (counterexample): an endpoint with status `unknown` whose stored
apex result already equals the fresh probe outcome is not dirty, so the
engine leaves its status `unknown` — the claim instead requires the
inferred value, which here would be `full`. -/
theorem C2_counterexample :
    (processService envAllTrue "2026-01-01" false false unknownCleanSvc).service.ipv6.status
      = "unknown" ∧
    specStatus (apexWorksOf envAllTrue unknownCleanSvc) none = "full" := by
  refine ⟨by decide, by decide⟩

/-- C2 (amended): a non-`unknown` status is never overwritten; a clean
(not dirty) endpoint keeps its status even when `unknown`; and a dirty
endpoint whose status is `unknown` receives exactly the claim's inferred
value. -/
theorem C2_amended (env : String → ProbeOutcome) (now : String) (v d : Bool) (s : Service) :
    (s.ipv6.status ≠ "unknown" →
      (processService env now v d s).service.ipv6.status = s.ipv6.status) ∧
    ((processService env now v d s).dirty = false →
      (processService env now v d s).service.ipv6.status = s.ipv6.status) ∧
    ((processService env now v d s).dirty = true → s.ipv6.status = "unknown" →
      (processService env now v d s).service.ipv6.status =
        specStatus (apexWorksOf env s)
          (if wwwApplicableOf s = true then some (wwwWorksOf env s) else none)) := by
  refine ⟨?_, ?_, ?_⟩
  · intro h
    rw [processService_status]
    have hne : (s.ipv6.status == "unknown") = false := by simp [h]
    rw [hne]
    simp
  · intro h
    rw [processService_dirty] at h
    rw [processService_status, h]
    simp
  · intro h1 h2
    rw [processService_dirty] at h1
    rw [processService_status, h1, h2]
    rw [if_pos (by decide : (true && (("unknown" : String) == "unknown")) = true)]
    cases hb : wwwApplicableOf s with
    | true =>
      obtain ⟨t, ht, hr⟩ := testsAfter_find_www_app env s hb
      rw [resultOf_eq ht, ht, hr, if_pos rfl]
      simp only [Option.isSome_some, Bool.and_true, Bool.true_and]
      exact inferStatus_www _ _
    | false =>
      rw [if_neg (by simp)]
      simp only [Bool.false_and]
      exact inferStatus_noWww _ _

/-- C2 (witness): a dirty endpoint (fresh test created) with status
`unknown` and a fully working apex, no www variant, is advanced to
`full`. -/
theorem C2_witness :
    (processService envAllTrue "2026-01-01" false false freshSvc).service.ipv6.status
      = "full" := by
  have h := (C2_amended envAllTrue "2026-01-01" false false freshSvc).2.2 (by decide) (by decide)
  rw [h]
  decide

/-! ## C3 -/

/-- C3 (counterexample): `www.store.example.com` has four labels, yet the
run creates a `www_domain` test for it, because the resolver only looks
for the `www.` prefix — refuting "for any hostname with three or more
labels a `www_domain` test is never created". -/
theorem C3_counterexample :
    labelCount "www.store.example.com" = 4 ∧
    ((processService envAllFalse "2026-01-01" false false wwwSubSvc).service.ipv6.tests.find?
      (tIs "www_domain")).isSome = true := by
  refine ⟨by decide, by decide⟩

theorem wwwApplicable_iff (s : Service) (host : String) (hu : s.url = some host) :
    wwwApplicableOf s = true ↔ (wwwPrefixed host = true ∨ labelCount host ≤ 2) := by
  unfold wwwApplicableOf
  rw [hu]
  by_cases h1 : wwwPrefixed host = true
  · simp [getDomainVariants, h1]
  · by_cases h2 : labelCount host > 2
    · simp only [getDomainVariants, h1, Bool.false_eq_true, if_false, h2, if_true]
      simp [h1]
      omega
    · simp only [getDomainVariants, h1, Bool.false_eq_true, if_false, h2, if_false]
      simp [h1]
      omega

/-- C3 (amended): after a run (given unique test ids), a `www_domain`
test exists iff the hostname starts with `www.` or has at most two
dot-separated labels; in particular it is created for any `www.`-prefixed
hostname regardless of depth, and removed for deeper hostnames without
the prefix. -/
theorem C3_amended (env : String → ProbeOutcome) (now : String) (v d : Bool) (s : Service)
    (host : String) (hu : s.url = some host)
    (hc : s.ipv6.tests.countP (tIs "www_domain") ≤ 1) :
    (((processService env now v d s).service.ipv6.tests.find? (tIs "www_domain")).isSome = true)
      ↔ (wwwPrefixed host = true ∨ labelCount host ≤ 2) := by
  rw [processService_tests, ← wwwApplicable_iff s host hu]
  constructor
  · intro hsome
    cases hb : wwwApplicableOf s with
    | true => rfl
    | false =>
      rw [testsAfter_find_www_notapp env s hb hc] at hsome
      simp at hsome
  · intro happ
    obtain ⟨t, ht, _⟩ := testsAfter_find_www_app env s happ
    rw [ht]
    rfl

/-- C3 (witness): a three-label hostname without the `www.` prefix ends
the run with no `www_domain` test — the stored one is removed. -/
theorem C3_witness :
    ((processService envAllFalse "2026-01-01" false false subSvc).service.ipv6.tests.find?
      (tIs "www_domain")).isSome = false := by
  have h := C3_amended envAllFalse "2026-01-01" false false subSvc "store.example.com"
    rfl (by decide)
  cases hx : ((processService envAllFalse "2026-01-01" false false subSvc).service.ipv6.tests.find?
      (tIs "www_domain")).isSome with
  | false => rfl
  | true => exact absurd (h.mp hx) (by decide)

/-! ## C4 -/

/-- C4: the backing store is written iff at least one endpoint came out
dirty, while `last_checked` is refreshed on every processed endpoint
regardless — a timestamp-only refresh never causes a write by itself. -/
theorem C4_write_iff_dirty (env : String → ProbeOutcome) (now : String) (v d : Bool)
    (svcs : List Service) (h : ∀ s ∈ svcs, s.url.isSome = true) :
    ((runProgram true true env now v d svcs).wrote = true ↔
      ∃ s ∈ svcs, (processService env now v d s).dirty = true) ∧
    (∀ s' ∈ (mainLoop env now v d svcs).services, s'.ipv6.last_checked = some now) := by
  obtain ⟨ha, hm, hu⟩ := mainLoop_no_abort env now v d svcs h
  constructor
  · simp only [runProgram, if_true, ha, Bool.false_eq_true, if_false]
    rw [hu]
    cases hany : svcs.any (fun s => (processService env now v d s).dirty) with
    | true =>
      simp only [if_true]
      exact iff_of_true trivial (List.any_eq_true.mp hany)
    | false =>
      simp only [Bool.false_eq_true, if_false]
      apply iff_of_false
      · simp
      · exact fun hx => absurd (List.any_eq_true.mpr hx) (by simp [hany])
  · intro s' hs'
    rw [hm] at hs'
    obtain ⟨s, hs, rfl⟩ := List.mem_map.mp hs'
    exact processService_last_checked env now v d s

/-- C4 (witness): a registry whose only endpoint already matches the
fresh probes is not dirty, so nothing is written (even though
`last_checked` was refreshed). -/
theorem C4_witness :
    (runProgram true true envAllTrue "2026-01-01" false false [cleanSvc]).wrote = false := by
  have h := C4_write_iff_dirty envAllTrue "2026-01-01" false false [cleanSvc]
    (by intro s hs; rw [List.mem_singleton] at hs; subst hs; rfl)
  cases hx : (runProgram true true envAllTrue "2026-01-01" false false [cleanSvc]).wrote with
  | false => rfl
  | true =>
    obtain ⟨s, hs, hd⟩ := h.1.mp hx
    rw [List.mem_singleton] at hs
    subst hs
    exact absurd hd (by decide)

/-! ## C7 -/

/-- C7 (counterexample): with a malformed url first in the registry, the
loop aborts immediately: the following endpoint is returned untouched
(its `last_checked` still unset), so processing of the remaining
endpoints does not continue. -/
theorem C7_counterexample :
    (mainLoop envAllTrue "2026-01-01" false false [badSvc, tailSvc]).aborted = true ∧
    (mainLoop envAllTrue "2026-01-01" false false [badSvc, tailSvc]).services
      = [badSvc, tailSvc] ∧
    tailSvc.ipv6.last_checked = none ∧
    (runProgram true true envAllTrue "2026-01-01" false false [badSvc, tailSvc]).wrote
      = false := by
  refine ⟨rfl, rfl, rfl, rfl⟩

/-- C7 (amended): the variant resolver itself yields the all-null
variant for a malformed url without throwing, and a null hostname
short-circuits both probes to failure; but the main loop re-parses the
url unguarded (line 208) before consulting the resolver, so a malformed
url aborts the loop — remaining endpoints are left unprocessed and
nothing is written — while the swallowed error still leaves exit 0. -/
theorem C7_amended (env : String → ProbeOutcome) (now : String) (v d : Bool)
    (rest : List Service) (s : Service) (hu : s.url = none) :
    getDomainVariants s.url = ⟨none, none, none⟩ ∧
    checkDomain env (getDomainVariants s.url).apex = ⟨false, false, false⟩ ∧
    checkDomain env (getDomainVariants s.url).www = ⟨false, false, false⟩ ∧
    mainLoop env now v d (s :: rest) = ⟨s :: rest, false, [], true⟩ ∧
    (runProgram true true env now v d (s :: rest)).wrote = false ∧
    (runProgram true true env now v d (s :: rest)).exitCode = 0 := by
  have h1 : getDomainVariants s.url = ⟨none, none, none⟩ := by
    rw [hu]
    rfl
  have h4 : mainLoop env now v d (s :: rest) = ⟨s :: rest, false, [], true⟩ := by
    simp [mainLoop, hu]
  refine ⟨h1, by rw [h1]; rfl, by rw [h1]; rfl, h4, ?_, ?_⟩
  · simp [runProgram, h4]
  · simp [runProgram, h4]

/-- C7 (witness): concrete instance of the amended behaviour. -/
theorem C7_witness :
    mainLoop envAllFalse "2026-01-01" false false [badSvc] = ⟨[badSvc], false, [], true⟩ ∧
    (runProgram true true envAllFalse "2026-01-01" false false [badSvc]).wrote = false := by
  have h := C7_amended envAllFalse "2026-01-01" false false [] badSvc rfl
  exact ⟨h.2.2.2.1, h.2.2.2.2.1⟩

/-! ## C8 -/

/-- C8 (counterexample): an unreadable store makes `main()` reject; the
rejection is handled by `.catch(console.error)`, so the error is only
logged and the process exits 0 — not non-zero as the claim requires. -/
theorem C8_counterexample :
    (runProgram false true envAllTrue "2026-01-01" false false [exampleSvc]).errorLogged
      = true ∧
    (runProgram false true envAllTrue "2026-01-01" false false [exampleSvc]).exitCode = 0 := by
  exact ⟨rfl, rfl⟩

/-- C8 (amended): the process exit status is 0 in every case — probe
failures are data, and store I/O failures (unreadable store, failing
write) are swallowed by the top-level catch, merely logging the error
and skipping the write. -/
theorem C8_amended (sr ws : Bool) (env : String → ProbeOutcome) (now : String) (v d : Bool)
    (svcs : List Service) :
    (runProgram sr ws env now v d svcs).exitCode = 0 ∧
    (runProgram false ws env now v d svcs).errorLogged = true ∧
    (runProgram false ws env now v d svcs).wrote = false ∧
    (runProgram true false env now v d svcs).wrote = false := by
  refine ⟨?_, rfl, rfl, ?_⟩
  · unfold runProgram
    cases sr with
    | false => rfl
    | true =>
      simp only [if_true]
      split
      · rfl
      · split
        · split <;> rfl
        · rfl
  · unfold runProgram
    simp only [if_true]
    split
    · rfl
    · split
      · rfl
      · rfl

/-! ## C9 -/

theorem apexWorksOf_azure (env : String → ProbeOutcome) {s : Service} (hid : s.id = "azure") :
    apexWorksOf env s = (apexInfoOf env s).hasAAAA := by
  unfold apexWorksOf
  rw [hid]
  cases h : (apexInfoOf env s).hasAAAA with
  | true => simp [h]
  | false => simp [h]

/-- C9: for the endpoint with id `azure` the persisted apex result is
forced to AAAA presence, irrespective of the raw HTTP measurement (the
right-hand side does not mention `httpWorks`); the override is applied
before reconciliation (the stored result carries the forced value) and,
in verbose mode, is logged with a dedicated event distinct from the
ordinary probe-result events, emitted exactly when the override fires. -/
theorem C9_azure_override (env : String → ProbeOutcome) (now : String) (d : Bool)
    (s : Service) (hid : s.id = "azure") :
    ((processService env now true d s).service.ipv6.tests.find? (tIs "apex_domain")).map
      (fun t => t.result) = some (some ((apexInfoOf env s).hasAAAA)) ∧
    ((apexInfoOf env s).hasAAAA = true →
      LogEvent.azureOverride ∈ (processService env now true d s).logs) ∧
    ((apexInfoOf env s).hasAAAA = false →
      LogEvent.azureOverride ∉ (processService env now true d s).logs) := by
  refine ⟨?_, ?_, ?_⟩
  · rw [processService_tests]
    obtain ⟨t, ht, hr⟩ := testsAfter_find_apex env s
    rw [ht]
    simp [hr, apexWorksOf_azure env hid]
  · intro h
    unfold apexInfoOf at h
    simp only [processService]
    simp [hid, h]
  · intro h
    unfold apexInfoOf at h
    simp only [processService]
    simp only [List.mem_append, not_or, hid, h]
    refine ⟨⟨⟨?_, ?_⟩, ?_⟩, ?_⟩ <;> · split <;> simp_all

/-- C9 (witness): Azure with AAAA present but HTTP failing still records
`apex_domain.result = true`, and the override event is logged. -/
theorem C9_witness :
    ((processService envAaaaOnly "2026-01-01" true false azureSvc).service.ipv6.tests.find?
      (tIs "apex_domain")).map (fun t => t.result) = some (some true) ∧
    LogEvent.azureOverride ∈ (processService envAaaaOnly "2026-01-01" true false azureSvc).logs := by
  have h := C9_azure_override envAaaaOnly "2026-01-01" false azureSvc rfl
  exact ⟨by rw [h.1]; rfl, h.2.1 rfl⟩

/-! ## C10 -/

/-- C10: status inference is gated on the dirty flag — an endpoint whose
stored results already equal the freshly computed values (apex present
and fresh; www present and fresh when applicable, absent when not, so no
migration or removal fires) is not dirty, and its status is left
unchanged even when it is `unknown`. -/
theorem C10_clean_keeps_unknown (env : String → ProbeOutcome) (now : String) (v d : Bool)
    (s : Service) (ta : Test)
    (hA : s.ipv6.tests.find? (tIs "apex_domain") = some ta)
    (hAr : ta.result = some (apexWorksOf env s))
    (hW1 : wwwApplicableOf s = true → ∃ tw,
      s.ipv6.tests.find? (tIs "www_domain") = some tw ∧
      tw.result = some (wwwWorksOf env s))
    (hW2 : wwwApplicableOf s = false → s.ipv6.tests.find? (tIs "www_domain") = none) :
    (processService env now v d s).dirty = false ∧
    (processService env now v d s).service.ipv6.status = s.ipv6.status := by
  obtain ⟨h1, h2, h3⟩ := processService_noop env now v d s ta hA hAr hW1 hW2
  exact ⟨h3, h2⟩

/-- C10 (witness): an `unknown` endpoint whose stored apex result equals
the fresh outcome stays `unknown`. -/
theorem C10_witness :
    (processService envAllTrue "2026-01-01" false false unknownCleanSvc).dirty = false ∧
    (processService envAllTrue "2026-01-01" false false unknownCleanSvc).service.ipv6.status
      = "unknown" := by
  have h := C10_clean_keeps_unknown envAllTrue "2026-01-01" false false unknownCleanSvc
    ⟨"apex_domain", apexName, apexDesc, some true⟩
    (by decide) (by decide)
    (fun hx => absurd hx (by decide)) (fun _ => by decide)
  refine ⟨h.1, ?_⟩
  rw [h.2]
  rfl

/-! ## C5 -/

theorem updateResult_countP_tIs (i j : String) (w : Bool) (ts : List Test) :
    (updateResult i w ts).1.countP (tIs j) = ts.countP (tIs j) :=
  updateResult_countP_congr i w (tIs j) ts (fun _ _ => rfl)

/-- Effect of one step on an endpoint holding a legacy `aaaa_record` test
and no `apex_domain` test: the legacy test is renamed in place, its name
and description refreshed, its result replaced by this run's value, and
no duplicate is created. -/
theorem migrate_apex_spec (env : String → ProbeOutcome) (s : Service) (t : Test)
    (hA0 : s.ipv6.tests.find? (tIs "apex_domain") = none)
    (hL : s.ipv6.tests.find? (tIs "aaaa_record") = some t)
    (hcnt : s.ipv6.tests.countP (tIs "aaaa_record") = 1) :
    ∃ t', (testsAfter env s).find? (tIs "apex_domain") = some t' ∧
      t'.id = "apex_domain" ∧ t'.name = apexName ∧ t'.description = apexDesc ∧
      t'.result = some (apexWorksOf env s) ∧
      (testsAfter env s).countP (tIs "apex_domain") = 1 ∧
      (testsAfter env s).countP (tIs "aaaa_record") = 0 := by
  have e1 : migrateApex s.ipv6.tests =
      (replaceFirst (tIs "aaaa_record") renameToApex s.ipv6.tests, true) := by
    simp only [migrateApex, hA0, hL]
  have f1 : (replaceFirst (tIs "aaaa_record") renameToApex s.ipv6.tests).find?
      (tIs "apex_domain") = some (renameToApex t) :=
    find?_replaceFirst_new hA0 hL (by simp [tIs, renameToApex])
  have c1a : (replaceFirst (tIs "aaaa_record") renameToApex s.ipv6.tests).countP
      (tIs "apex_domain") = 1 :=
    countP_replaceFirst_intro (countP_eq_zero_of_find?_none hA0) hL
      (by simp [tIs, renameToApex])
  have c1b : (replaceFirst (tIs "aaaa_record") renameToApex s.ipv6.tests).countP
      (tIs "aaaa_record") = 0 :=
    countP_replaceFirst_elim hcnt (fun u => by simp [tIs, renameToApex])
  set ts1 := replaceFirst (tIs "aaaa_record") renameToApex s.ipv6.tests with hts1
  have f2 : (migrateWww (wwwApplicableOf s) ts1).1.find? (tIs "apex_domain")
      = some (renameToApex t) := by
    rw [migrateWww_find_tIs (by decide) (by decide)]
    exact f1
  have c2a : (migrateWww (wwwApplicableOf s) ts1).1.countP (tIs "apex_domain") = 1 := by
    rw [migrateWww_countP_tIs (by decide) (by decide)]
    exact c1a
  have c2b : (migrateWww (wwwApplicableOf s) ts1).1.countP (tIs "aaaa_record") = 0 := by
    rw [migrateWww_countP_tIs (by decide) (by decide)]
    exact c1b
  have e3 : ensureApex (migrateWww (wwwApplicableOf s) ts1).1
      = (migrateWww (wwwApplicableOf s) ts1).1 := ensureApex_found f2
  have f4 : (ensureWww (wwwApplicableOf s)
      (ensureApex (migrateWww (wwwApplicableOf s) ts1).1)).find? (tIs "apex_domain")
      = some (renameToApex t) := by
    rw [ensureWww_find_apex, e3]
    exact f2
  obtain ⟨t', h5, hres, hid', hname', hdesc'⟩ := updateResult_find (w := apexWorksOf env s) f4
  refine ⟨t', ?_, ?_, ?_, ?_, hres, ?_, ?_⟩
  · simp only [testsAfter, e1, ← hts1]
    rw [Prod.fst, reconcileWww_find_apex]
    exact h5
  · rw [hid']
    rfl
  · rw [hname']
    rfl
  · rw [hdesc']
    rfl
  · simp only [testsAfter, e1, ← hts1]
    rw [Prod.fst, reconcileWww_countP_tIs (by decide), updateResult_countP_tIs,
      ensureWww_countP_tIs (by decide), e3]
    exact c2a
  · simp only [testsAfter, e1, ← hts1]
    rw [Prod.fst, reconcileWww_countP_tIs (by decide), updateResult_countP_tIs,
      ensureWww_countP_tIs (by decide), e3]
    exact c2b

/-- Effect of one step on an endpoint with an applicable www variant
holding a legacy `www_variant` test and no `www_domain` test. -/
theorem migrate_www_spec (env : String → ProbeOutcome) (s : Service) (t : Test)
    (hb : wwwApplicableOf s = true)
    (hW0 : s.ipv6.tests.find? (tIs "www_domain") = none)
    (hL : s.ipv6.tests.find? (tIs "www_variant") = some t)
    (hcnt : s.ipv6.tests.countP (tIs "www_variant") = 1) :
    ∃ t', (testsAfter env s).find? (tIs "www_domain") = some t' ∧
      t'.id = "www_domain" ∧ t'.name = wwwName ∧ t'.description = wwwDesc ∧
      t'.result = some (wwwWorksOf env s) ∧
      (testsAfter env s).countP (tIs "www_domain") = 1 ∧
      (testsAfter env s).countP (tIs "www_variant") = 0 := by
  have f1w : (migrateApex s.ipv6.tests).1.find? (tIs "www_domain") = none := by
    rw [migrateApex_find_tIs (by decide) (by decide)]
    exact hW0
  have f1v : (migrateApex s.ipv6.tests).1.find? (tIs "www_variant") = some t := by
    rw [migrateApex_find_tIs (by decide) (by decide)]
    exact hL
  have c1v : (migrateApex s.ipv6.tests).1.countP (tIs "www_variant") = 1 := by
    rw [migrateApex_countP_tIs (by decide) (by decide)]
    exact hcnt
  have c1w : (migrateApex s.ipv6.tests).1.countP (tIs "www_domain") = 0 :=
    countP_eq_zero_of_find?_none f1w
  have e2 : migrateWww true (migrateApex s.ipv6.tests).1 =
      (replaceFirst (tIs "www_variant") renameToWww (migrateApex s.ipv6.tests).1, true) := by
    simp only [migrateWww, f1w, f1v, if_true]
  set ts2 := replaceFirst (tIs "www_variant") renameToWww (migrateApex s.ipv6.tests).1
    with hts2
  have f2 : ts2.find? (tIs "www_domain") = some (renameToWww t) :=
    find?_replaceFirst_new f1w f1v (by simp [tIs, renameToApex, renameToWww])
  have c2w : ts2.countP (tIs "www_domain") = 1 :=
    countP_replaceFirst_intro c1w f1v (by simp [tIs, renameToApex, renameToWww])
  have c2v : ts2.countP (tIs "www_variant") = 0 :=
    countP_replaceFirst_elim c1v (fun u => by simp [tIs, renameToApex, renameToWww])
  have f3 : (ensureApex ts2).find? (tIs "www_domain") = some (renameToWww t) := by
    rw [ensureApex_find_tIs (by decide)]
    exact f2
  have e4 : ensureWww true (ensureApex ts2) = ensureApex ts2 := ensureWww_found true f3
  have f5 : ((updateResult "apex_domain" (apexWorksOf env s) (ensureApex ts2)).1).find?
      (tIs "www_domain") = some (renameToWww t) := by
    rw [updateResult_find_other (by decide)]
    exact f3
  obtain ⟨t', h6, hres, hid', hname', hdesc'⟩ := updateResult_find (w := wwwWorksOf env s) f5
  refine ⟨t', ?_, ?_, ?_, ?_, hres, ?_, ?_⟩
  · simp only [testsAfter, hb, e2, ← hts2, e4]
    simp only [reconcileWww, if_true]
    exact h6
  · rw [hid']
    rfl
  · rw [hname']
    rfl
  · rw [hdesc']
    rfl
  · simp only [testsAfter, hb, e2, ← hts2, e4]
    simp only [reconcileWww, if_true]
    rw [updateResult_countP_tIs, updateResult_countP_tIs, ensureApex_countP_tIs (by decide)]
    exact c2w
  · simp only [testsAfter, hb, e2, ← hts2, e4]
    simp only [reconcileWww, if_true]
    rw [updateResult_countP_tIs, updateResult_countP_tIs, ensureApex_countP_tIs (by decide)]
    exact c2v

/-- C5: an endpoint holding a test with the deprecated id `aaaa_record`
(resp. `www_variant`, when a www variant applies) and none with the
current id has that test renamed in place after one run — name and
description refreshed, no duplicate created, the legacy id gone — and its
stored result is preserved unless the fresh probe outcome differs, in
which case the fresh value is stored. -/
theorem C5_legacy_migration (env : String → ProbeOutcome) (now : String) (v d : Bool)
    (s : Service) :
    (∀ t, s.ipv6.tests.find? (tIs "apex_domain") = none →
      s.ipv6.tests.find? (tIs "aaaa_record") = some t →
      s.ipv6.tests.countP (tIs "aaaa_record") = 1 →
      ∃ t', (processService env now v d s).service.ipv6.tests.find? (tIs "apex_domain")
          = some t' ∧
        t'.id = "apex_domain" ∧ t'.name = apexName ∧ t'.description = apexDesc ∧
        (t.result = some (apexWorksOf env s) → t'.result = t.result) ∧
        (¬ t.result = some (apexWorksOf env s) → t'.result = some (apexWorksOf env s)) ∧
        (processService env now v d s).service.ipv6.tests.countP (tIs "apex_domain") = 1 ∧
        (processService env now v d s).service.ipv6.tests.countP (tIs "aaaa_record") = 0) ∧
    (∀ t, wwwApplicableOf s = true →
      s.ipv6.tests.find? (tIs "www_domain") = none →
      s.ipv6.tests.find? (tIs "www_variant") = some t →
      s.ipv6.tests.countP (tIs "www_variant") = 1 →
      ∃ t', (processService env now v d s).service.ipv6.tests.find? (tIs "www_domain")
          = some t' ∧
        t'.id = "www_domain" ∧ t'.name = wwwName ∧ t'.description = wwwDesc ∧
        (t.result = some (wwwWorksOf env s) → t'.result = t.result) ∧
        (¬ t.result = some (wwwWorksOf env s) → t'.result = some (wwwWorksOf env s)) ∧
        (processService env now v d s).service.ipv6.tests.countP (tIs "www_domain") = 1 ∧
        (processService env now v d s).service.ipv6.tests.countP (tIs "www_variant") = 0) := by
  constructor
  · intro t h0 h1 h2
    obtain ⟨t', hf, hid', hn, hd', hr, c1, c2⟩ := migrate_apex_spec env s t h0 h1 h2
    rw [processService_tests]
    exact ⟨t', hf, hid', hn, hd', fun he => by rw [hr, he], fun _ => hr, c1, c2⟩
  · intro t hb h0 h1 h2
    obtain ⟨t', hf, hid', hn, hd', hr, c1, c2⟩ := migrate_www_spec env s t hb h0 h1 h2
    rw [processService_tests]
    exact ⟨t', hf, hid', hn, hd', fun he => by rw [hr, he], fun _ => hr, c1, c2⟩

/-- C5 (witness): a store entry with legacy `aaaa_record` and
`www_variant` tests (both `result = true`) whose probes still succeed
comes out with `apex_domain`/`www_domain` tests carrying the preserved
`true` results and no legacy ids left. -/
theorem C5_witness :
    (((processService envAllTrue "2026-01-01" false false legacySvc).service.ipv6.tests.find?
      (tIs "apex_domain")).map (fun t => t.result) = some (some true)) ∧
    (((processService envAllTrue "2026-01-01" false false legacySvc).service.ipv6.tests.find?
      (tIs "www_domain")).map (fun t => t.result) = some (some true)) ∧
    (processService envAllTrue "2026-01-01" false false legacySvc).service.ipv6.tests.countP
      (tIs "aaaa_record") = 0 ∧
    (processService envAllTrue "2026-01-01" false false legacySvc).service.ipv6.tests.countP
      (tIs "www_variant") = 0 := by
  obtain ⟨hA, hW⟩ := C5_legacy_migration envAllTrue "2026-01-01" false false legacySvc
  obtain ⟨t1, hf1, -, -, -, hp1, -, -, hc1⟩ :=
    hA ⟨"aaaa_record", "AAAA Record", "Has AAAA records", some true⟩
      (by decide) (by decide) (by decide)
  obtain ⟨t2, hf2, -, -, -, hp2, -, -, hc2⟩ :=
    hW ⟨"www_variant", "WWW Variant", "WWW variant works", some true⟩
      (by decide) (by decide) (by decide) (by decide)
  refine ⟨?_, ?_, hc1, hc2⟩
  · rw [hf1]
    have h := hp1 (by decide)
    simp [h]
  · rw [hf2]
    have h := hp2 (by decide)
    simp [h]

/-! ## C6 -/

/-- Re-processing an already-processed endpoint under the same probe
environment is a no-op: after the first step the stored tests agree with
what the second step recomputes, so nothing fires. -/
theorem processService_idem (env : String → ProbeOutcome) (now1 now2 : String) (v d : Bool)
    (s : Service) (hc : s.ipv6.tests.countP (tIs "www_domain") ≤ 1) :
    (processService env now2 v d (processService env now1 v d s).service).service.ipv6.tests
      = (processService env now1 v d s).service.ipv6.tests ∧
    (processService env now2 v d (processService env now1 v d s).service).dirty = false ∧
    (processService env now2 v d (processService env now1 v d s).service).service.ipv6.status
      = (processService env now1 v d s).service.ipv6.status := by
  set s1 := (processService env now1 v d s).service with hs1
  have hid : s1.id = s.id := processService_id env now1 v d s
  have hurl : s1.url = s.url := processService_url env now1 v d s
  have happ : wwwApplicableOf s1 = wwwApplicableOf s := wwwApplicableOf_congr hurl
  have haw : apexWorksOf env s1 = apexWorksOf env s := apexWorksOf_congr env hid hurl
  have hww : wwwWorksOf env s1 = wwwWorksOf env s := wwwWorksOf_congr env hurl
  have hts : s1.ipv6.tests = testsAfter env s := processService_tests env now1 v d s
  obtain ⟨ta, hfa, hra⟩ := testsAfter_find_apex env s
  have hA : s1.ipv6.tests.find? (tIs "apex_domain") = some ta := by
    rw [hts]
    exact hfa
  have hAr : ta.result = some (apexWorksOf env s1) := by
    rw [haw]
    exact hra
  have hW1 : wwwApplicableOf s1 = true → ∃ tw,
      s1.ipv6.tests.find? (tIs "www_domain") = some tw ∧
      tw.result = some (wwwWorksOf env s1) := by
    intro h
    rw [happ] at h
    obtain ⟨tw, h1, h2⟩ := testsAfter_find_www_app env s h
    refine ⟨tw, ?_, ?_⟩
    · rw [hts]
      exact h1
    · rw [hww]
      exact h2
  have hW2 : wwwApplicableOf s1 = false →
      s1.ipv6.tests.find? (tIs "www_domain") = none := by
    intro h
    rw [happ] at h
    rw [hts]
    exact testsAfter_find_www_notapp env s h hc
  obtain ⟨k1, k2, k3⟩ := processService_noop env now2 v d s1 ta hA hAr hW1 hW2
  exact ⟨k1, k3, k2⟩

/-- C6: with identical probe outcomes, a second run over the output of a
first run changes no test content, marks no endpoint dirty, and performs
no disk write. -/
theorem C6_idempotent (env : String → ProbeOutcome) (now1 now2 : String) (v d : Bool)
    (svcs : List Service)
    (hu : ∀ s ∈ svcs, s.url.isSome = true)
    (hc : ∀ s ∈ svcs, s.ipv6.tests.countP (tIs "www_domain") ≤ 1) :
    ((mainLoop env now2 v d (mainLoop env now1 v d svcs).services).services.map
        (fun x => x.ipv6.tests)
      = (mainLoop env now1 v d svcs).services.map (fun x => x.ipv6.tests)) ∧
    (mainLoop env now2 v d (mainLoop env now1 v d svcs).services).updated = false ∧
    (runProgram true true env now2 v d (mainLoop env now1 v d svcs).services).wrote
      = false := by
  obtain ⟨ha1, hm1, -⟩ := mainLoop_no_abort env now1 v d svcs hu
  have hu1 : ∀ s' ∈ (mainLoop env now1 v d svcs).services, s'.url.isSome = true := by
    rw [hm1]
    intro s' hs'
    obtain ⟨s, hs, rfl⟩ := List.mem_map.mp hs'
    rw [processService_url]
    exact hu s hs
  obtain ⟨ha2, hm2, hup2⟩ := mainLoop_no_abort env now2 v d _ hu1
  have hupd : (mainLoop env now2 v d (mainLoop env now1 v d svcs).services).updated
      = false := by
    rw [hup2]
    rw [List.any_eq_false]
    intro s' hs'
    rw [hm1] at hs'
    obtain ⟨s, hs, rfl⟩ := List.mem_map.mp hs'
    have h := (processService_idem env now1 now2 v d s (hc s hs)).2.1
    simp [h]
  refine ⟨?_, hupd, ?_⟩
  · rw [hm2, List.map_map]
    apply List.map_congr_left
    intro s' hs'
    rw [hm1] at hs'
    obtain ⟨s, hs, rfl⟩ := List.mem_map.mp hs'
    simp only [Function.comp]
    exact (processService_idem env now1 now2 v d s (hc s hs)).1
  · simp only [runProgram, if_true, ha2, Bool.false_eq_true, if_false, hupd]

/-- C6 (witness): one endpoint, probed twice under the same environment:
the second run is clean and writes nothing. -/
theorem C6_witness :
    (mainLoop envAllTrue "t2" false false
      (mainLoop envAllTrue "t1" false false [freshSvc]).services).updated = false ∧
    (runProgram true true envAllTrue "t2" false false
      (mainLoop envAllTrue "t1" false false [freshSvc]).services).wrote = false := by
  have h := C6_idempotent envAllTrue "t1" "t2" false false [freshSvc]
    (by intro s hs; rw [List.mem_singleton] at hs; subst hs; rfl)
    (by intro s hs; rw [List.mem_singleton] at hs; subst hs; decide)
  exact ⟨h.2.1, h.2.2⟩

end CheckIPv6
